import Mathlib

/-!
Verification of the IBTK Lagrangian-data distribution layer.

This file is a shallow embedding of the two source files of the repository:

* `src/ibtk/include/ibtk/private/IndexUtilities-inl.h` — pure index
  arithmetic (`IndexUtilities::coarsen`, `IndexUtilities::refine`,
  `IndexUtilities::getCellIndex`).  C++ `double` coordinates are modelled
  as exact rationals `ℚ`; `SAMRAI::hier::Index<NDIM>` as `Fin n → ℤ` for
  an arbitrary dimension `n`; C integer division (truncation toward zero)
  as `Int.tdiv`.

* `src/ibtk/src/lagrangian/LDataManager.h` — only the class declaration
  and its documentation are in the repository; the member-function bodies
  are not.  The per-level distribution state and the operations the
  claims need are therefore modelled from the specification and from the
  header documentation, and each such definition carries a doc comment
  starting with `Modelled from the spec:`.
-/

/-! ### Index arithmetic (IndexUtilities-inl.h) -/

/-- Scalar (single spatial dimension) body of the loop in
`IndexUtilities::getCellIndex` (IndexUtilities-inl.h, lines 77-88).
The offset of the point `X` is measured from whichever of the two domain
bounds is closer (`|X - x_lower| ≤ |X - x_upper|` picks the lower bound,
so ties go to the lower bound), the offset is divided by the cell
spacing `dx` and floored, and then the matching index bound is added:
`ilower` on the lower branch, `iupper` *plus one* on the upper branch. -/
def getCellIndex1d (X x_lower x_upper dx : ℚ) (ilower iupper : ℤ) : ℤ :=
  if |X - x_lower| ≤ |X - x_upper| then
    ilower + ⌊(X - x_lower) / dx⌋
  else
    iupper + ⌊(X - x_upper) / dx⌋ + 1

/-- Translation of `IndexUtilities::getCellIndex` (IndexUtilities-inl.h,
lines 66-90): the loop over spatial dimensions applies `getCellIndex1d`
independently in each dimension. -/
def getCellIndex {n : ℕ} (X x_lower x_upper dx : Fin n → ℚ)
    (ilower iupper : Fin n → ℤ) : Fin n → ℤ :=
  fun d => getCellIndex1d (X d) (x_lower d) (x_upper d) (dx d) (ilower d) (iupper d)

/-- Scalar formula asserted by claim C2, written from the claim's words:
the floored offset plus "the corresponding index bound (`ilower[d]` when
measuring from the lower bound, `iupper[d]` when measuring from the
upper bound)" — with no further correction on the upper branch.  Stated
for comparison with the source translation `getCellIndex1d`. -/
def getCellIndexClaimed1d (X x_lower x_upper dx : ℚ) (ilower iupper : ℤ) : ℤ :=
  if |X - x_lower| ≤ |X - x_upper| then
    ilower + ⌊(X - x_lower) / dx⌋
  else
    iupper + ⌊(X - x_upper) / dx⌋

/-- Dimension-wise version of the formula asserted by claim C2. -/
def getCellIndexClaimed {n : ℕ} (X x_lower x_upper dx : Fin n → ℚ)
    (ilower iupper : Fin n → ℤ) : Fin n → ℤ :=
  fun d => getCellIndexClaimed1d (X d) (x_lower d) (x_upper d) (dx d) (ilower d) (iupper d)

/-- Scalar body of the loop in `IndexUtilities::coarsen`
(IndexUtilities-inl.h, line 55):
`i_coarse(d) = i_fine(d) < 0 ? (i_fine(d) + 1) / ratio(d) - 1 : i_fine(d) / ratio(d)`
with C integer division, i.e. `Int.tdiv` (truncation toward zero). -/
def coarsen1d (i_fine ratio : ℤ) : ℤ :=
  if i_fine < 0 then (i_fine + 1).tdiv ratio - 1 else i_fine.tdiv ratio

/-- Translation of `IndexUtilities::coarsen` (IndexUtilities-inl.h,
lines 49-58): the loop applies `coarsen1d` in each dimension. -/
def coarsen {n : ℕ} (i_fine ratio : Fin n → ℤ) : Fin n → ℤ :=
  fun d => coarsen1d (i_fine d) (ratio d)

/-- Translation of `IndexUtilities::refine` (IndexUtilities-inl.h,
lines 60-64): `i_coarse * ratio`, elementwise multiplication. -/
def refine {n : ℕ} (i_coarse ratio : Fin n → ℤ) : Fin n → ℤ :=
  fun d => i_coarse d * ratio d

/-! ### LDataManager distribution state (LDataManager.h)

The member-function bodies of `LDataManager` are not part of the
repository snapshot, so the definitions below are modelled from the
specification and from the documentation in `LDataManager.h`.  A level's
distribution state is represented by the per-process lists of owned
(local, non-ghost) global Lagrangian indices, `d_local_lag_indices` of
LDataManager.h (lines 1170-1189): entry `p` of the outer list is the
list for the process of MPI rank `p`, and the documented application
ordering puts the block of process `p` at global PETSc indices
`d_node_offset + j` where `d_node_offset` is the total local count of
all lower ranks — i.e. the global PETSc ordering is exactly the
concatenation of the per-process lists. -/

/-- Name of the reserved nodal-coordinate quantity,
`LDataManager::POSN_DATA_NAME` (LDataManager.h, lines 104-108; the
header note at lines 372-385 states: the name "X" is reserved for the
nodal coordinates). -/
def POSN_DATA_NAME : String := "X"

/-- Modelled from the spec: the set of reserved quantity names that
`createLNodeLevelData` refuses (the canonical position quantity). -/
def reservedQuantityNames : List String := [POSN_DATA_NAME]

/-- Result of an allocation request for named Lagrangian level data:
either the updated collection of registered quantity names, or the fatal
configuration error raised on a reserved-name collision. -/
inductive CreateLNodeLevelDataResult where
  | ok (quantity_names : List String)
  | duplicateNameError
deriving DecidableEq

/-- Modelled from the spec: `createLNodeLevelData` (LDataManager.h,
lines 372-385) allocates new named Lagrangian level data; it "fails with
DuplicateNameError if a name collides with a reserved name such as the
canonical position quantity", and otherwise registers the new name. -/
def createLNodeLevelData (quantity_names : List String) (quantity_name : String) :
    CreateLNodeLevelDataResult :=
  if quantity_name ∈ reservedQuantityNames then
    CreateLNodeLevelDataResult.duplicateNameError
  else
    CreateLNodeLevelDataResult.ok (quantity_names ++ [quantity_name])

/-- Modelled from the spec: `computeNodeDistribution` (LDataManager.h,
lines 940-973, body not in the repository snapshot) rebuilds, for one
level, the per-process lists of owned global Lagrangian indices from the
geometric ownership classification.  `owner ℓ` is the MPI rank of the
process whose patch contains node `ℓ` (the result of the Begin phase),
`num_nodes` is the total node count of the level (Lagrangian indices are
dense in `[0, num_nodes)`), and `nprocs` the number of MPI processes. -/
def computeNodeDistribution (owner : ℕ → ℕ) (num_nodes nprocs : ℕ) : List (List ℕ) :=
  (List.range nprocs).map (fun p => (List.range num_nodes).filter (fun ℓ => owner ℓ == p))

/-- Modelled from the spec: `endDataRedistribution` (LDataManager.h,
lines 670-689, body not in the repository snapshot) finishes a
redistribution by rebuilding the level's local index sets, ownership
bijection and node offsets from scratch via `computeNodeDistribution`. -/
def endDataRedistribution (owner : ℕ → ℕ) (num_nodes nprocs : ℕ) : List (List ℕ) :=
  computeNodeDistribution owner num_nodes nprocs

/-- Global PETSc (linear-algebra) ordering of a level distribution: the
concatenation of the per-process local lists, as documented in
LDataManager.h (lines 1178-1186): local node `j` of process `p` has
global PETSc index `node_offset p + j`. -/
def globalPETScOrdering (dist : List (List ℕ)) : List ℕ :=
  dist.flatten

/-- Local (owned, non-ghost) node count of the process of rank `rank`,
as in `LDataManager::getNumberOfLocalNodes` (LDataManager.h,
lines 341-350). -/
def getNumberOfLocalNodes (dist : List (List ℕ)) (rank : ℕ) : ℕ :=
  (dist.getD rank []).length

/-- Exclusive prefix scan with accumulator: element `p` of the result is
`acc` plus the sum of the first `p` inputs. -/
def exclusiveScan (acc : ℕ) : List ℕ → List ℕ
  | [] => []
  | c :: cs => acc :: exclusiveScan (acc + c) cs

/-- Modelled from the spec: `computeNodeOffsets` (LDataManager.h,
lines 975-983, body not in the repository snapshot) determines "the
number of local Lagrangian nodes on all MPI processes with rank less
than the rank of the current MPI process", computed for all ranks at
once as an exclusive prefix sum (a single scan) over the per-process
local node counts. -/
def computeNodeOffsets (local_node_counts : List ℕ) : List ℕ :=
  exclusiveScan 0 local_node_counts

/-- Node offset of the process of rank `rank`, as in
`LDataManager::getGlobalNodeOffset` (LDataManager.h, lines 352-361). -/
def getGlobalNodeOffset (dist : List (List ℕ)) (rank : ℕ) : ℕ :=
  (computeNodeOffsets (dist.map List.length)).getD rank 0

/-- Modelled from the spec: `mapPETScToLagrangian` (LDataManager.h,
lines 599-606) maps a global PETSc index to the fixed global Lagrangian
index of the same node: the node at position `petsc_idx` of the global
PETSc ordering.  Out-of-range indices yield `none`. -/
def mapPETScToLagrangian (dist : List (List ℕ)) (petsc_idx : ℕ) : Option ℕ :=
  (globalPETScOrdering dist).get? petsc_idx

/-- Modelled from the spec: `mapLagrangianToPETSc` (LDataManager.h,
lines 590-597) maps a fixed global Lagrangian index to its current
global PETSc index: its position in the global PETSc ordering.  Indices
of nodes not present on the level yield `none`. -/
def mapLagrangianToPETSc (dist : List (List ℕ)) (lag_idx : ℕ) : Option ℕ :=
  if lag_idx ∈ globalPETScOrdering dist then
    some ((globalPETScOrdering dist).indexOf lag_idx)
  else
    none

/-! ### Structure registry (LDataManager.h) -/

/-- Per-structure registry record: the structure's name and its
contiguous range `[first, last)` of global Lagrangian indices
(LDataManager.h, `d_strct_id_to_strct_name_map` and
`d_strct_id_to_lag_idx_range_map`, lines 1131-1135). -/
structure StructureInfo where
  strct_name : String
  lag_idx_range : ℤ × ℤ
deriving DecidableEq

/-- Largest finite value of an IEEE-754 binary64 `double`
(`std::numeric_limits<double>::max()` = `(2^53 - 1) * 2^971`), used by
the bounding-box sentinel "the entire range of double precision
values" (LDataManager.h, lines 504-515). -/
def DBL_MAX : ℚ := (2 ^ 53 - 1) * 2 ^ 971

/-- List of the global Lagrangian indices in the range `[first, last)`
of a structure. -/
def structureIndexList (rng : ℤ × ℤ) : List ℤ :=
  (List.range (rng.2 - rng.1).toNat).map (fun j => rng.1 + (j : ℤ))

/-- Componentwise sum of two coordinate vectors. -/
def vecAdd (u v : List ℚ) : List ℚ :=
  List.zipWith (fun a b => a + b) u v

/-- Componentwise minimum of two coordinate vectors. -/
def vecMin (u v : List ℚ) : List ℚ :=
  List.zipWith min u v

/-- Componentwise maximum of two coordinate vectors. -/
def vecMax (u v : List ℚ) : List ℚ :=
  List.zipWith max u v

/-- Modelled from the spec: `getLagrangianStructureID` for a structure
name (LDataManager.h, lines 448-457, body not in the repository
snapshot): "Returns -1 in the case that the Lagrangian structure name is
not associated with any Lagrangian structure." -/
def getLagrangianStructureIDByName (reg : List (ℤ × StructureInfo)) (structure_name : String) : ℤ :=
  match reg.find? (fun e => e.2.strct_name == structure_name) with
  | some e => e.1
  | none => -1

/-- Modelled from the spec: `getLagrangianStructureID` for a Lagrangian
index (LDataManager.h, lines 436-446, body not in the repository
snapshot): the ID of the structure whose index range contains the given
index; "Returns -1 in the case that the Lagrangian index is not
associated with any Lagrangian structure." -/
def getLagrangianStructureIDByLagIdx (reg : List (ℤ × StructureInfo)) (lag_idx : ℤ) : ℤ :=
  match reg.find? (fun e => decide (e.2.lag_idx_range.1 ≤ lag_idx ∧ lag_idx < e.2.lag_idx_range.2)) with
  | some e => e.1
  | none => -1

/-- Modelled from the spec: `getLagrangianStructureName` (LDataManager.h,
lines 459-468, body not in the repository snapshot): "Returns "UNKNOWN"
in the case that the Lagrangian structure ID is not associated with any
Lagrangian structure." -/
def getLagrangianStructureName (reg : List (ℤ × StructureInfo)) (structure_id : ℤ) : String :=
  match List.lookup structure_id reg with
  | some info => info.strct_name
  | none => "UNKNOWN"

/-- Modelled from the spec: `getLagrangianStructureIndexRange`
(LDataManager.h, lines 470-484, body not in the repository snapshot):
"Returns std::make_pair(-1,-1) in the case that the Lagrangian structure
ID is not associated with any Lagrangian structure." -/
def getLagrangianStructureIndexRange (reg : List (ℤ × StructureInfo)) (structure_id : ℤ) : ℤ × ℤ :=
  match List.lookup structure_id reg with
  | some info => info.lag_idx_range
  | none => (-1, -1)

/-- Modelled from the spec: `getLagrangianStructureCenterOfMass`
(LDataManager.h, lines 486-502, body not in the repository snapshot):
the arithmetic mean of the member node positions; "Returns
std::vector<double>(NDIM,0.0) in the case that the Lagrangian structure
ID is not associated with any Lagrangian structure."  `posn` gives the
current position of each node. -/
def getLagrangianStructureCenterOfMass (ndim : ℕ) (reg : List (ℤ × StructureInfo))
    (posn : ℤ → List ℚ) (structure_id : ℤ) : List ℚ :=
  match List.lookup structure_id reg with
  | some info =>
      (structureIndexList info.lag_idx_range).foldl (fun acc k => vecAdd acc (posn k))
          (List.replicate ndim 0)
        |>.map (fun c => c / ((structureIndexList info.lag_idx_range).length : ℚ))
  | none => List.replicate ndim 0

/-- Modelled from the spec: `getLagrangianStructureBoundingBox`
(LDataManager.h, lines 504-515, body not in the repository snapshot):
the componentwise min/max of the member node positions; "Returns the
entire range of double precision values in the case that the Lagrangian
structure ID is not associated with any Lagrangian structure", i.e. the
box `[-DBL_MAX, DBL_MAX]` in every dimension. -/
def getLagrangianStructureBoundingBox (ndim : ℕ) (reg : List (ℤ × StructureInfo))
    (posn : ℤ → List ℚ) (structure_id : ℤ) : List ℚ × List ℚ :=
  match List.lookup structure_id reg with
  | some info =>
      ((structureIndexList info.lag_idx_range).foldl (fun acc k => vecMin acc (posn k))
          (List.replicate ndim DBL_MAX),
        (structureIndexList info.lag_idx_range).foldl (fun acc k => vecMax acc (posn k))
          (List.replicate ndim (-DBL_MAX)))
  | none => (List.replicate ndim (-DBL_MAX), List.replicate ndim DBL_MAX)

/-! ### Structure activation (LDataManager.h) -/

/-- Modelled from the spec: `activateLagrangianStructures`
(LDataManager.h, lines 547-557, body not in the repository snapshot)
marks all structures with the given IDs as activated; activation is
"set-membership per ID", all other structures keep their state.  The
activation state (`d_strct_activation_map`) is modelled as the function
from structure ID to activation flag. -/
def activateLagrangianStructures (activation : ℤ → Bool) (structure_ids : List ℤ) : ℤ → Bool :=
  fun s => if s ∈ structure_ids then true else activation s

/-- Modelled from the spec: `inactivateLagrangianStructures`
(LDataManager.h, lines 559-570, body not in the repository snapshot)
marks all structures with the given IDs as inactivated; all other
structures keep their state. -/
def inactivateLagrangianStructures (activation : ℤ → Bool) (structure_ids : List ℤ) : ℤ → Bool :=
  fun s => if s ∈ structure_ids then false else activation s

/-- Modelled from the spec: `getLagrangianStructureIsActivated`
(LDataManager.h, lines 572-579, body not in the repository snapshot)
observes the activation flag of one structure. -/
def getLagrangianStructureIsActivated (activation : ℤ → Bool) (structure_id : ℤ) : Bool :=
  activation structure_id

/-! ### Theorems: index arithmetic -/

/-- Helper: the scalar coarsening formula of the source agrees with
mathematical floor division (`Int.ediv`) for positive ratios. -/
theorem coarsen1d_eq_ediv (i r : ℤ) (hr : 0 < r) : coarsen1d i r = i / r := by
  unfold coarsen1d
  rcases lt_or_le i 0 with hi | hi
  · rw [if_pos hi]
    have hs0 : 0 ≤ i % r := Int.emod_nonneg i (ne_of_gt hr)
    have hs1 : i % r < r := Int.emod_lt_of_pos i hr
    have hq : r * (i / r) + i % r = i := Int.ediv_add_emod i r
    have h2 : -(i + 1) = (r - i % r - 1) + (-(i / r) - 1) * r := by
      linear_combination hq
    have h3 : i + 1 = -(-(i + 1)) := by ring
    rw [h3, Int.neg_tdiv,
      Int.tdiv_eq_ediv (show (0 : ℤ) ≤ -(i + 1) by omega) hr.le, h2,
      Int.add_mul_ediv_right _ _ (ne_of_gt hr),
      Int.ediv_eq_zero_of_lt (by omega) (by omega)]
    omega
  · rw [if_neg (not_lt.mpr hi), Int.tdiv_eq_ediv hi hr.le]

/-- Helper: floor of a quotient of integer casts in `ℚ` is integer floor
division, for a positive divisor. -/
theorem floor_cast_div_eq_ediv (i r : ℤ) (hr : 0 < r) : ⌊(i : ℚ) / (r : ℚ)⌋ = i / r := by
  have hcast : ((r.toNat : ℕ) : ℚ) = (r : ℚ) := by
    exact_mod_cast Int.toNat_of_nonneg hr.le
  rw [← hcast, Rat.floor_intCast_div_natCast, Int.toNat_of_nonneg hr.le]

/-- Claim C4: for every integer fine-grid index (including negative
ones) and every positive refinement ratio, `coarsen` computes in each
dimension `(i+1)/r - 1` when `i < 0` and `i/r` otherwise, with C integer
division (`Int.tdiv`), and this value equals the mathematical floor of
`i / r`. -/
theorem coarsen_is_floor_division {n : ℕ} (i_fine ratio : Fin n → ℤ)
    (hr : ∀ d, 0 < ratio d) (d : Fin n) :
    coarsen i_fine ratio d =
      (if i_fine d < 0 then (i_fine d + 1).tdiv (ratio d) - 1 else (i_fine d).tdiv (ratio d)) ∧
    coarsen i_fine ratio d = ⌊(i_fine d : ℚ) / (ratio d : ℚ)⌋ := by
  refine ⟨rfl, ?_⟩
  rw [floor_cast_div_eq_ediv _ _ (hr d)]
  exact coarsen1d_eq_ediv _ _ (hr d)

/-- Witness for C4 at the concrete input `i = -7`, `r = 2` in one
dimension. -/
theorem coarsen_is_floor_division_witness :
    (∀ d : Fin 1, 0 < (fun _ : Fin 1 => (2 : ℤ)) d) ∧
    (coarsen (fun _ : Fin 1 => (-7 : ℤ)) (fun _ => 2) 0 =
        (if (-7 : ℤ) < 0 then ((-7 : ℤ) + 1).tdiv 2 - 1 else (-7 : ℤ).tdiv 2) ∧
      coarsen (fun _ : Fin 1 => (-7 : ℤ)) (fun _ => 2) 0 = ⌊((-7 : ℤ) : ℚ) / ((2 : ℤ) : ℚ)⌋) :=
  ⟨by decide, coarsen_is_floor_division (fun _ => -7) (fun _ => 2) (by decide) 0⟩

/-- Claim C10: coarsening the refinement of any coarse index by the same
(componentwise at least 1) ratio returns the original index:
`coarsen (refine i r) r = i`. -/
theorem coarsen_refine_inverse {n : ℕ} (i_coarse ratio : Fin n → ℤ)
    (hr : ∀ d, 1 ≤ ratio d) :
    coarsen (refine i_coarse ratio) ratio = i_coarse := by
  funext d
  show coarsen1d (i_coarse d * ratio d) (ratio d) = i_coarse d
  have h1 : (0 : ℤ) < ratio d := lt_of_lt_of_le one_pos (hr d)
  rw [coarsen1d_eq_ediv _ _ h1]
  exact Int.mul_ediv_cancel _ (ne_of_gt h1)

/-- Witness for C10 at the concrete input `i = (-3, 5)`, `r = (2, 3)`. -/
theorem coarsen_refine_inverse_witness :
    (∀ d : Fin 2, 1 ≤ (![(2 : ℤ), 3]) d) ∧
    coarsen (refine ![(-3 : ℤ), 5] ![2, 3]) ![2, 3] = ![(-3 : ℤ), 5] :=
  ⟨by decide, coarsen_refine_inverse ![(-3 : ℤ), 5] ![2, 3] (by decide)⟩

/-- Claim C2, counterexample: on the patch `[0,10]` with unit spacing
and cell-index bounds `[0,9]`, the point `X = 10` lies on the upper
bound, so the source measures from the upper bound and computes
`iupper + floor(0/1) + 1 = 10`, while the formula asserted by the claim
(`iupper + floor(0/1)`, no `+1`) gives `9`. -/
theorem getCellIndex_claimed_formula_counterexample :
    getCellIndex (fun _ : Fin 1 => (10 : ℚ)) (fun _ => 0) (fun _ => 10) (fun _ => 1)
        (fun _ => 0) (fun _ => 9) 0 = 10 ∧
    getCellIndexClaimed (fun _ : Fin 1 => (10 : ℚ)) (fun _ => 0) (fun _ => 10) (fun _ => 1)
        (fun _ => 0) (fun _ => 9) 0 = 9 ∧
    getCellIndex (fun _ : Fin 1 => (10 : ℚ)) (fun _ => 0) (fun _ => 10) (fun _ => 1)
        (fun _ => 0) (fun _ => 9) 0 ≠
      getCellIndexClaimed (fun _ : Fin 1 => (10 : ℚ)) (fun _ => 0) (fun _ => 10) (fun _ => 1)
        (fun _ => 0) (fun _ => 9) 0 := by
  refine ⟨?_, ?_, ?_⟩ <;>
    norm_num [getCellIndex, getCellIndexClaimed, getCellIndex1d, getCellIndexClaimed1d]

/-- Claim C2, amended: in each spatial dimension, `getCellIndex` floors
the offset of the point from whichever domain bound is closer (ties go
to the lower bound) divided by the cell spacing, and adds `ilower[d]`
when measuring from the lower bound but `iupper[d] + 1` — one more than
the claim stated — when measuring from the upper bound; equivalently, it
exceeds the claim's formula by exactly 1 on the upper branch. -/
theorem getCellIndex_measures_from_nearer_bound {n : ℕ}
    (X x_lower x_upper dx : Fin n → ℚ) (ilower iupper : Fin n → ℤ) (d : Fin n) :
    getCellIndex X x_lower x_upper dx ilower iupper d =
      (if |X d - x_lower d| ≤ |X d - x_upper d| then
        ilower d + ⌊(X d - x_lower d) / dx d⌋
      else
        iupper d + ⌊(X d - x_upper d) / dx d⌋ + 1) ∧
    getCellIndex X x_lower x_upper dx ilower iupper d =
      getCellIndexClaimed X x_lower x_upper dx ilower iupper d +
        (if |X d - x_lower d| ≤ |X d - x_upper d| then 0 else 1) := by
  constructor
  · rfl
  · by_cases h : |X d - x_lower d| ≤ |X d - x_upper d| <;>
      simp [getCellIndex, getCellIndexClaimed, getCellIndex1d, getCellIndexClaimed1d, h]

/-- Claim C3: two abutting patches that share the face `x_upper A =
x_lower B` in dimension `d`, have the same positive cell spacing,
consistent cell-index bounds (`ilower B = iupper A + 1` across the
shared face, geometry matching the index boxes) and identical bounds in
the other dimensions, assign the identical cell index to a point lying
exactly on the shared face. -/
theorem getCellIndex_face_consistency {n : ℕ}
    (X xlA xuA xlB xuB dx : Fin n → ℚ) (ilA iuA ilB iuB : Fin n → ℤ) (d : Fin n)
    (hdx : 0 < dx d)
    (hboxA : ilA d ≤ iuA d)
    (hgeomA : xuA d - xlA d = ((iuA d - ilA d + 1 : ℤ) : ℚ) * dx d)
    (hboxB : ilB d ≤ iuB d)
    (hgeomB : xuB d - xlB d = ((iuB d - ilB d + 1 : ℤ) : ℚ) * dx d)
    (habut : xuA d = xlB d)
    (hidx : ilB d = iuA d + 1)
    (hX : X d = xuA d)
    (hother : ∀ e : Fin n, e ≠ d → xlA e = xlB e ∧ xuA e = xuB e ∧ ilA e = ilB e ∧ iuA e = iuB e) :
    getCellIndex X xlA xuA dx ilA iuA = getCellIndex X xlB xuB dx ilB iuB := by
  funext e
  rcases eq_or_ne e d with rfl | he
  · have hcA : (0 : ℚ) < ((iuA e - ilA e + 1 : ℤ) : ℚ) := by
      exact_mod_cast (show (0 : ℤ) < iuA e - ilA e + 1 by omega)
    have hlt : xlA e < xuA e := by nlinarith [mul_pos hcA hdx]
    have hXA : X e - xuA e = 0 := by rw [hX, sub_self]
    have hXB : X e - xlB e = 0 := by rw [hX, habut, sub_self]
    have hvA : getCellIndex1d (X e) (xlA e) (xuA e) (dx e) (ilA e) (iuA e) = iuA e + 1 := by
      have hcond : ¬(|X e - xlA e| ≤ |X e - xuA e|) := by
        rw [hXA, abs_zero, not_le, hX, abs_of_pos (by linarith)]
        linarith
      unfold getCellIndex1d
      rw [if_neg hcond, hXA, zero_div, Int.floor_zero, add_zero]
    have hvB : getCellIndex1d (X e) (xlB e) (xuB e) (dx e) (ilB e) (iuB e) = ilB e := by
      have hcond : |X e - xlB e| ≤ |X e - xuB e| := by
        rw [hXB, abs_zero]
        exact abs_nonneg _
      unfold getCellIndex1d
      rw [if_pos hcond, hXB, zero_div, Int.floor_zero, add_zero]
    show getCellIndex1d (X e) (xlA e) (xuA e) (dx e) (ilA e) (iuA e) =
      getCellIndex1d (X e) (xlB e) (xuB e) (dx e) (ilB e) (iuB e)
    rw [hvA, hvB, hidx]
  · obtain ⟨h1, h2, h3, h4⟩ := hother e he
    show getCellIndex1d (X e) (xlA e) (xuA e) (dx e) (ilA e) (iuA e) =
      getCellIndex1d (X e) (xlB e) (xuB e) (dx e) (ilB e) (iuB e)
    rw [h1, h2, h3, h4]

/-- Witness for C3: patch A is `[0,5]` with cells `0..4`, patch B is
`[5,10]` with cells `5..9`, unit spacing, point exactly at the shared
face `x = 5`; both patches assign the same cell index. -/
theorem getCellIndex_face_consistency_witness :
    ((0 : ℚ) < 1 ∧ (0 : ℤ) ≤ 4 ∧ (5 : ℚ) - 0 = (((4 : ℤ) - 0 + 1 : ℤ) : ℚ) * 1 ∧
      (5 : ℤ) ≤ 9 ∧ (10 : ℚ) - 5 = (((9 : ℤ) - 5 + 1 : ℤ) : ℚ) * 1 ∧
      (5 : ℚ) = 5 ∧ (5 : ℤ) = 4 + 1 ∧ (5 : ℚ) = 5) ∧
    getCellIndex (fun _ : Fin 1 => (5 : ℚ)) (fun _ => 0) (fun _ => 5) (fun _ => 1)
        (fun _ => 0) (fun _ => 4) =
      getCellIndex (fun _ : Fin 1 => (5 : ℚ)) (fun _ => 5) (fun _ => 10) (fun _ => 1)
        (fun _ => 5) (fun _ => 9) :=
  ⟨by norm_num,
    getCellIndex_face_consistency (fun _ : Fin 1 => (5 : ℚ)) (fun _ => 0) (fun _ => 5)
      (fun _ => 5) (fun _ => 10) (fun _ => 1) (fun _ => 0) (fun _ => 4) (fun _ => 5)
      (fun _ => 9) 0 (by norm_num) (by norm_num) (by norm_num) (by norm_num) (by norm_num)
      (by norm_num) (by norm_num) (by norm_num) (by decide)⟩

/-! ### Theorems: distribution rebuild -/

/-- Helper: multiplicity of `a` in `List.range N`. -/
theorem count_range_eq (a N : ℕ) :
    List.count a (List.range N) = if a < N then 1 else 0 := by
  by_cases h : a < N
  · rw [if_pos h]
    exact List.count_eq_one_of_mem (List.nodup_range N) (List.mem_range.mpr h)
  · rw [if_neg h]
    exact List.count_eq_zero.mpr (fun hm => h (List.mem_range.mp hm))

/-- Helper: multiplicity of `a` in a filtered list of naturals. -/
theorem count_filter_ite (q : ℕ → Bool) (a : ℕ) (l : List ℕ) :
    List.count a (List.filter q l) = if q a then List.count a l else 0 := by
  by_cases h : q a
  · rw [if_pos h, List.count_filter h]
  · rw [if_neg h]
    exact List.count_eq_zero.mpr (fun hm => h (List.mem_filter.mp hm).2)

/-- Helper: summing `if k = p then c else 0` over `p ∈ range P` picks out
`c` exactly when `k < P`. -/
theorem sum_map_range_ite (k c : ℕ) : ∀ P : ℕ,
    ((List.range P).map (fun p => if k = p then c else 0)).sum = if k < P then c else 0 := by
  intro P
  induction P with
  | zero => simp
  | succ P ih =>
    rw [List.range_succ, List.map_append, List.sum_append, ih]
    simp only [List.map_cons, List.map_nil, List.sum_cons, List.sum_nil, add_zero]
    by_cases h1 : k < P
    · rw [if_pos h1, if_neg (show ¬k = P by omega), if_pos (show k < P + 1 by omega)]
      omega
    · by_cases h2 : k = P
      · rw [if_neg h1, if_pos h2, if_pos (show k < P + 1 by omega)]
        omega
      · rw [if_neg h1, if_neg h2, if_neg (show ¬k < P + 1 by omega)]

/-- Helper: after a rebuild, the global PETSc ordering of a level is a
permutation of `[0, num_nodes)` — every global Lagrangian index appears
at exactly one global PETSc position. -/
theorem endDataRedistribution_perm (owner : ℕ → ℕ) (num_nodes nprocs : ℕ)
    (h : ∀ ℓ, ℓ < num_nodes → owner ℓ < nprocs) :
    (globalPETScOrdering (endDataRedistribution owner num_nodes nprocs)).Perm
      (List.range num_nodes) := by
  rw [List.perm_iff_count]
  intro a
  unfold globalPETScOrdering endDataRedistribution computeNodeDistribution
  rw [List.count_flatten, List.map_map]
  have hfun : (List.count a ∘ fun p => (List.range num_nodes).filter (fun ℓ => owner ℓ == p)) =
      fun p => if owner a = p then List.count a (List.range num_nodes) else 0 := by
    funext p
    simp only [Function.comp_apply, count_filter_ite, beq_iff_eq]
  rw [hfun, sum_map_range_ite]
  by_cases ha : a < num_nodes
  · rw [if_pos (h a ha)]
  · rw [count_range_eq, if_neg ha]
    simp

/-- Helper: reading the first `p` entries of a list back through `getD`
over `range p`. -/
theorem map_range_getD_take {α : Type} (dflt : α) :
    ∀ (L : List α) (p : ℕ), p ≤ L.length →
      (List.range p).map (fun q => L.getD q dflt) = L.take p := by
  intro L
  induction L with
  | nil =>
    intro p hp
    have : p = 0 := by simpa using hp
    subst this
    simp
  | cons x xs ih =>
    intro p hp
    match p with
    | 0 => simp
    | p + 1 =>
      rw [List.range_succ_eq_map, List.map_cons, List.map_map, List.take_succ_cons]
      simp only [List.getD_cons_zero, Function.comp_def, List.getD_cons_succ]
      rw [ih p (by simpa using hp)]

/-- Helper: element `p` of an exclusive prefix scan is the accumulator
plus the sum of the first `p` inputs. -/
theorem exclusiveScan_getD : ∀ (counts : List ℕ) (acc p : ℕ), p < counts.length →
    (exclusiveScan acc counts).getD p 0 = acc + (counts.take p).sum := by
  intro counts
  induction counts with
  | nil =>
    intro acc p h
    simp at h
  | cons c cs ih =>
    intro acc p h
    match p with
    | 0 => simp [exclusiveScan]
    | p + 1 =>
      rw [show exclusiveScan acc (c :: cs) = acc :: exclusiveScan (acc + c) cs from rfl]
      rw [List.getD_cons_succ, List.take_succ_cons, List.sum_cons]
      rw [ih (acc + c) p (by simpa using h)]
      omega

/-- Helper/model link: the node offset of rank `p` is the length of the
concatenation of the local lists of all lower ranks, so the documented
block of process `p` starts at position `getGlobalNodeOffset dist p` of
the global PETSc ordering. -/
theorem getGlobalNodeOffset_eq_take_flatten (dist : List (List ℕ)) (p : ℕ)
    (h : p < dist.length) :
    getGlobalNodeOffset dist p = ((dist.take p).flatten).length := by
  unfold getGlobalNodeOffset computeNodeOffsets
  rw [exclusiveScan_getD _ 0 p (by simpa using h)]
  rw [List.length_flatten, List.map_take]
  omega

/-- Claim C1: after `endDataRedistribution`, the ownership map between
global Lagrangian indices and global PETSc indices is a total bijection
over `[0, num_nodes)` — the global PETSc ordering (position = global
PETSc index, entry = global Lagrangian index) is a permutation of
`List.range num_nodes` — and the local node counts of all processes sum
to the total node count `num_nodes`. -/
theorem endDataRedistribution_ownership_bijection (owner : ℕ → ℕ) (num_nodes nprocs : ℕ)
    (h : ∀ ℓ, ℓ < num_nodes → owner ℓ < nprocs) :
    (globalPETScOrdering (endDataRedistribution owner num_nodes nprocs)).Perm
        (List.range num_nodes) ∧
    ((List.range nprocs).map
      (getNumberOfLocalNodes (endDataRedistribution owner num_nodes nprocs))).sum = num_nodes := by
  have hperm := endDataRedistribution_perm owner num_nodes nprocs h
  refine ⟨hperm, ?_⟩
  have hlen : (endDataRedistribution owner num_nodes nprocs).length = nprocs := by
    unfold endDataRedistribution computeNodeDistribution
    rw [List.length_map, List.length_range]
  have h2 : (List.range (endDataRedistribution owner num_nodes nprocs).length).map
      (fun q => (endDataRedistribution owner num_nodes nprocs).getD q []) =
      endDataRedistribution owner num_nodes nprocs := by
    rw [map_range_getD_take [] _ _ le_rfl, List.take_length]
  rw [hlen] at h2
  have h3 : (List.range nprocs).map
      (getNumberOfLocalNodes (endDataRedistribution owner num_nodes nprocs)) =
      (endDataRedistribution owner num_nodes nprocs).map List.length := by
    have hc : getNumberOfLocalNodes (endDataRedistribution owner num_nodes nprocs) =
        List.length ∘ (fun q => (endDataRedistribution owner num_nodes nprocs).getD q []) := rfl
    rw [hc, ← List.map_map, h2]
  rw [h3, ← List.length_flatten]
  have h4 := hperm.length_eq
  simpa [globalPETScOrdering, List.length_range] using h4

/-- Witness for C1: 5 nodes distributed over 2 processes by parity. -/
theorem endDataRedistribution_ownership_bijection_witness :
    (∀ ℓ, ℓ < 5 → (fun ℓ => ℓ % 2) ℓ < 2) ∧
    ((globalPETScOrdering (endDataRedistribution (fun ℓ => ℓ % 2) 5 2)).Perm
        (List.range 5) ∧
      ((List.range 2).map (getNumberOfLocalNodes (endDataRedistribution (fun ℓ => ℓ % 2) 5 2))).sum = 5) :=
  ⟨by decide, endDataRedistribution_ownership_bijection (fun ℓ => ℓ % 2) 5 2 (by decide)⟩

/-- Claim C5: immediately after a rebuild, `mapPETScToLagrangian` and
`mapLagrangianToPETSc` are mutually inverse bijections over the in-range
indices: each in-range global PETSc index round-trips through its
Lagrangian index and back, and conversely. -/
theorem mapLagrangianToPETSc_roundtrip (owner : ℕ → ℕ) (num_nodes nprocs : ℕ)
    (h : ∀ ℓ, ℓ < num_nodes → owner ℓ < nprocs) :
    (∀ x, x < num_nodes → ∃ ℓ,
      mapPETScToLagrangian (endDataRedistribution owner num_nodes nprocs) x = some ℓ ∧
      mapLagrangianToPETSc (endDataRedistribution owner num_nodes nprocs) ℓ = some x) ∧
    (∀ ℓ, ℓ < num_nodes → ∃ x,
      mapLagrangianToPETSc (endDataRedistribution owner num_nodes nprocs) ℓ = some x ∧
      mapPETScToLagrangian (endDataRedistribution owner num_nodes nprocs) x = some ℓ) := by
  have hperm := endDataRedistribution_perm owner num_nodes nprocs h
  have hnodup : (globalPETScOrdering (endDataRedistribution owner num_nodes nprocs)).Nodup :=
    hperm.symm.nodup (List.nodup_range num_nodes)
  have hlen : (globalPETScOrdering (endDataRedistribution owner num_nodes nprocs)).length = num_nodes := by
    rw [hperm.length_eq, List.length_range]
  constructor
  · intro x hx
    have hxlen : x < (globalPETScOrdering (endDataRedistribution owner num_nodes nprocs)).length := by
      omega
    refine ⟨(globalPETScOrdering (endDataRedistribution owner num_nodes nprocs)).get ⟨x, hxlen⟩, ?_, ?_⟩
    · unfold mapPETScToLagrangian
      exact List.get?_eq_get hxlen
    · unfold mapLagrangianToPETSc
      rw [if_pos (List.get_mem _ _ _)]
      rw [List.get_indexOf hnodup]
  · intro ℓ hℓ
    have hmem : ℓ ∈ globalPETScOrdering (endDataRedistribution owner num_nodes nprocs) := by
      rw [hperm.mem_iff, List.mem_range]
      exact hℓ
    refine ⟨(globalPETScOrdering (endDataRedistribution owner num_nodes nprocs)).indexOf ℓ, ?_, ?_⟩
    · unfold mapLagrangianToPETSc
      rw [if_pos hmem]
    · unfold mapPETScToLagrangian
      rw [List.get?_eq_get (List.indexOf_lt_length.mpr hmem), List.indexOf_get]

/-- Witness for C5: the parity distribution of 5 nodes over 2 processes. -/
theorem mapLagrangianToPETSc_roundtrip_witness :
    (∀ ℓ, ℓ < 5 → (fun ℓ => ℓ % 2) ℓ < 2) ∧
    ((∀ x, x < 5 → ∃ ℓ,
        mapPETScToLagrangian (endDataRedistribution (fun ℓ => ℓ % 2) 5 2) x = some ℓ ∧
        mapLagrangianToPETSc (endDataRedistribution (fun ℓ => ℓ % 2) 5 2) ℓ = some x) ∧
      (∀ ℓ, ℓ < 5 → ∃ x,
        mapLagrangianToPETSc (endDataRedistribution (fun ℓ => ℓ % 2) 5 2) ℓ = some x ∧
        mapPETScToLagrangian (endDataRedistribution (fun ℓ => ℓ % 2) 5 2) x = some ℓ)) :=
  ⟨by decide, mapLagrangianToPETSc_roundtrip (fun ℓ => ℓ % 2) 5 2 (by decide)⟩

/-- Claim C6: the node offset of rank 0 is 0, and the node offset of
rank `p` equals the sum of the local (owned, non-ghost) node counts of
ranks `0..p-1`, computed by the exclusive prefix scan
`computeNodeOffsets`. -/
theorem computeNodeOffsets_exclusive_scan (dist : List (List ℕ)) (p : ℕ)
    (hp : p < dist.length) :
    getGlobalNodeOffset dist 0 = 0 ∧
    getGlobalNodeOffset dist p = ((List.range p).map (getNumberOfLocalNodes dist)).sum := by
  constructor
  · rcases dist with _ | ⟨l, ls⟩ <;> rfl
  · unfold getGlobalNodeOffset computeNodeOffsets
    rw [exclusiveScan_getD _ 0 p (by simpa using hp)]
    have h1 : (List.range p).map (getNumberOfLocalNodes dist) =
        ((List.range p).map (fun q => dist.getD q [])).map List.length := by
      rw [List.map_map]
      rfl
    rw [h1, map_range_getD_take [] dist p (le_of_lt hp), List.map_take]
    omega

/-- Witness for C6: the synthetic 4-process distribution with local
counts `[3,5,2,4]`, whose offsets are `[0,3,8,10]`. -/
theorem computeNodeOffsets_exclusive_scan_witness :
    (3 < 4) ∧
    (getGlobalNodeOffset [[0, 1, 2], [3, 4, 5, 6, 7], [8, 9], [10, 11, 12, 13]] 0 = 0 ∧
      getGlobalNodeOffset [[0, 1, 2], [3, 4, 5, 6, 7], [8, 9], [10, 11, 12, 13]] 3 =
        ((List.range 3).map
          (getNumberOfLocalNodes [[0, 1, 2], [3, 4, 5, 6, 7], [8, 9], [10, 11, 12, 13]])).sum) ∧
    computeNodeOffsets [3, 5, 2, 4] = [0, 3, 8, 10] :=
  ⟨by decide,
    computeNodeOffsets_exclusive_scan [[0, 1, 2], [3, 4, 5, 6, 7], [8, 9], [10, 11, 12, 13]] 3
      (by decide),
    by decide⟩

/-! ### Theorems: structure registry, activation, data allocation -/

/-- Claim C7: structure queries on a structure ID (or name, or
Lagrangian index) that is not registered on the level return the
documented sentinels rather than failing: ID queries return `-1`, the
name query returns "UNKNOWN", the index range is `(-1,-1)`, the center
of mass is the zero vector, and the bounding box is the entire range of
double-precision values. -/
theorem unregistered_structure_queries_return_sentinels (ndim : ℕ)
    (reg : List (ℤ × StructureInfo)) (posn : ℤ → List ℚ) (structure_id : ℤ)
    (structure_name : String) (lag_idx : ℤ)
    (hid : List.lookup structure_id reg = none)
    (hname : ∀ e ∈ reg, e.2.strct_name ≠ structure_name)
    (hlag : ∀ e ∈ reg, ¬(e.2.lag_idx_range.1 ≤ lag_idx ∧ lag_idx < e.2.lag_idx_range.2)) :
    getLagrangianStructureIDByName reg structure_name = -1 ∧
    getLagrangianStructureIDByLagIdx reg lag_idx = -1 ∧
    getLagrangianStructureName reg structure_id = "UNKNOWN" ∧
    getLagrangianStructureIndexRange reg structure_id = (-1, -1) ∧
    getLagrangianStructureCenterOfMass ndim reg posn structure_id = List.replicate ndim 0 ∧
    getLagrangianStructureBoundingBox ndim reg posn structure_id =
      (List.replicate ndim (-DBL_MAX), List.replicate ndim DBL_MAX) := by
  have hfind1 : reg.find? (fun e => e.2.strct_name == structure_name) = none := by
    rw [List.find?_eq_none]
    intro e he
    simpa using hname e he
  have hfind2 : reg.find?
      (fun e => decide (e.2.lag_idx_range.1 ≤ lag_idx ∧ lag_idx < e.2.lag_idx_range.2)) = none := by
    rw [List.find?_eq_none]
    intro e he
    simpa using hlag e he
  refine ⟨?_, ?_, ?_, ?_, ?_, ?_⟩
  · unfold getLagrangianStructureIDByName
    rw [hfind1]
  · unfold getLagrangianStructureIDByLagIdx
    rw [hfind2]
  · unfold getLagrangianStructureName
    rw [hid]
  · unfold getLagrangianStructureIndexRange
    rw [hid]
  · unfold getLagrangianStructureCenterOfMass
    rw [hid]
  · unfold getLagrangianStructureBoundingBox
    rw [hid]

/-- Witness for C7: an empty registry and the unregistered ID 4. -/
theorem unregistered_structure_queries_return_sentinels_witness :
    (List.lookup (4 : ℤ) ([] : List (ℤ × StructureInfo)) = none ∧
      (∀ e ∈ ([] : List (ℤ × StructureInfo)), e.2.strct_name ≠ "ring") ∧
      (∀ e ∈ ([] : List (ℤ × StructureInfo)),
        ¬(e.2.lag_idx_range.1 ≤ (0 : ℤ) ∧ (0 : ℤ) < e.2.lag_idx_range.2))) ∧
    (getLagrangianStructureIDByName [] "ring" = -1 ∧
      getLagrangianStructureIDByLagIdx [] 0 = -1 ∧
      getLagrangianStructureName [] 4 = "UNKNOWN" ∧
      getLagrangianStructureIndexRange [] 4 = (-1, -1) ∧
      getLagrangianStructureCenterOfMass 2 [] (fun _ => []) 4 = List.replicate 2 0 ∧
      getLagrangianStructureBoundingBox 2 [] (fun _ => []) 4 =
        (List.replicate 2 (-DBL_MAX), List.replicate 2 DBL_MAX)) :=
  ⟨⟨rfl, by simp, by simp⟩,
    unregistered_structure_queries_return_sentinels 2 [] (fun _ => []) 4 "ring" 0 rfl
      (by simp) (by simp)⟩

/-- Claim C8: structure activation and inactivation are idempotent:
activating structures that are all already active, or inactivating
structures that are all already inactive, leaves the activation state of
every structure unchanged as observed by
`getLagrangianStructureIsActivated`. -/
theorem activateLagrangianStructures_idempotent (activation : ℤ → Bool)
    (structure_ids : List ℤ) (structure_id : ℤ) :
    ((∀ s ∈ structure_ids, getLagrangianStructureIsActivated activation s = true) →
      getLagrangianStructureIsActivated
          (activateLagrangianStructures activation structure_ids) structure_id =
        getLagrangianStructureIsActivated activation structure_id) ∧
    ((∀ s ∈ structure_ids, getLagrangianStructureIsActivated activation s = false) →
      getLagrangianStructureIsActivated
          (inactivateLagrangianStructures activation structure_ids) structure_id =
        getLagrangianStructureIsActivated activation structure_id) := by
  constructor
  · intro hall
    have hall2 : ∀ s ∈ structure_ids, activation s = true := hall
    show (if structure_id ∈ structure_ids then true else activation structure_id) =
      activation structure_id
    by_cases hmem : structure_id ∈ structure_ids
    · rw [if_pos hmem, hall2 structure_id hmem]
    · rw [if_neg hmem]
  · intro hall
    have hall2 : ∀ s ∈ structure_ids, activation s = false := hall
    show (if structure_id ∈ structure_ids then false else activation structure_id) =
      activation structure_id
    by_cases hmem : structure_id ∈ structure_ids
    · rw [if_pos hmem, hall2 structure_id hmem]
    · rw [if_neg hmem]

/-- Witness for C8: activating the already-active structures 1 and 2,
and inactivating the already-inactive structures 1 and 2. -/
theorem activateLagrangianStructures_idempotent_witness :
    getLagrangianStructureIsActivated
        (activateLagrangianStructures (fun s => decide (0 ≤ s)) [1, 2]) 1 =
      getLagrangianStructureIsActivated (fun s => decide (0 ≤ s)) 1 ∧
    getLagrangianStructureIsActivated
        (inactivateLagrangianStructures (fun s => decide (s < 0)) [1, 2]) 1 =
      getLagrangianStructureIsActivated (fun s => decide (s < 0)) 1 :=
  ⟨(activateLagrangianStructures_idempotent (fun s => decide (0 ≤ s)) [1, 2] 1).1 (by decide),
    (activateLagrangianStructures_idempotent (fun s => decide (s < 0)) [1, 2] 1).2 (by decide)⟩

/-- Claim C9: `createLNodeLevelData` fails with `duplicateNameError`
whenever the requested name collides with a reserved name — in
particular the canonical position quantity name "X" (`POSN_DATA_NAME`) —
and succeeds, registering the new quantity, for every non-colliding
name. -/
theorem createLNodeLevelData_reserved_name (quantity_names : List String)
    (quantity_name : String) :
    createLNodeLevelData quantity_names POSN_DATA_NAME =
      CreateLNodeLevelDataResult.duplicateNameError ∧
    (quantity_name ∈ reservedQuantityNames →
      createLNodeLevelData quantity_names quantity_name =
        CreateLNodeLevelDataResult.duplicateNameError) ∧
    (quantity_name ∉ reservedQuantityNames →
      createLNodeLevelData quantity_names quantity_name =
        CreateLNodeLevelDataResult.ok (quantity_names ++ [quantity_name])) := by
  refine ⟨?_, fun hmem => ?_, fun hmem => ?_⟩
  · unfold createLNodeLevelData
    rw [if_pos (show POSN_DATA_NAME ∈ reservedQuantityNames by simp [reservedQuantityNames])]
  · unfold createLNodeLevelData
    rw [if_pos hmem]
  · unfold createLNodeLevelData
    rw [if_neg hmem]

/-- Witness for C9: allocating "X" fails, allocating the fresh name "V"
succeeds. -/
theorem createLNodeLevelData_reserved_name_witness :
    createLNodeLevelData ["X", "U"] "X" = CreateLNodeLevelDataResult.duplicateNameError ∧
    createLNodeLevelData ["X", "U"] "V" = CreateLNodeLevelDataResult.ok ["X", "U", "V"] :=
  ⟨(createLNodeLevelData_reserved_name ["X", "U"] "V").1,
    (createLNodeLevelData_reserved_name ["X", "U"] "V").2.2 (by decide)⟩
